import Mathlib

/-!
Verification development for the mwa_hyperbeam orchestration layer: the
dedup mapper, the GPU/CPU batch engines, the post-processing steps and the
FFI safety shim.  Pure structures are translated from the Rust sources;
components whose implementation lives outside the provided sources (the
DedupMapper, the engines, PostProcessing and the numeric capability) are
modelled from the specification, as indicated on each definition.
-/

/-- Modelled from the spec (the `FEEBeamGpu` construction code is not among
the provided sources): a tile configuration is an ordered sequence of dipole
delays together with a sequence of 16 or 32 dipole amplitude gains.  Two
`TileConfig`s are equal iff both sequences are elementwise equal, which is
exactly the derived structural equality on lists. -/
structure TileConfig where
  delays : List Nat
  amps : List ℚ
  deriving DecidableEq, Inhabited

/-- Append `x` to the accumulator unless it is already present.  One step of
the DedupMapper scan. -/
def insertIfAbsent {α : Type} [DecidableEq α] (acc : List α) (x : α) : List α :=
  if x ∈ acc then acc else acc ++ [x]

/-- Modelled from the spec: the DedupMapper's unique list.  Scan the input in
order; on first sight of a value append it, on repeat do nothing.  The result
preserves first-occurrence order. -/
def uniqList {α : Type} [DecidableEq α] (xs : List α) : List α :=
  xs.foldl insertIfAbsent []

/-- Modelled from the spec: the unique index assigned to a value is its
position in the first-occurrence unique list. -/
def uniqueIndex {α : Type} [DecidableEq α] (xs : List α) (x : α) : Nat :=
  (uniqList xs).indexOf x

/-- Modelled from the spec: the tile `UniqueIndexMap`, sending each original
position to the compact unique index of its value. -/
def tile_map (tiles : List TileConfig) : List Nat :=
  tiles.map (uniqueIndex tiles)

/-- Modelled from the spec: the frequency `UniqueIndexMap`. -/
def freq_map (freqs : List Nat) : List Nat :=
  freqs.map (uniqueIndex freqs)

/-- Modelled from the spec: `num_unique_tiles`, as reported by
`get_num_unique_fee_tiles`, is the length of the deduplicated tile list. -/
def num_unique_tiles (tiles : List TileConfig) : Nat :=
  (uniqList tiles).length

/-- Modelled from the spec: `num_unique_freqs`, as reported by
`get_num_unique_fee_freqs`. -/
def num_unique_freqs (freqs : List Nat) : Nat :=
  (uniqList freqs).length

theorem mem_foldl_insertIfAbsent {α : Type} [DecidableEq α] (xs : List α) :
    ∀ (acc : List α) (a : α),
      a ∈ xs.foldl insertIfAbsent acc ↔ a ∈ acc ∨ a ∈ xs := by
  induction xs with
  | nil => intro acc a; simp
  | cons x xs ih =>
    intro acc a
    rw [List.foldl_cons, ih]
    unfold insertIfAbsent
    by_cases hx : x ∈ acc
    · rw [if_pos hx]
      constructor
      · rintro (h | h)
        · exact Or.inl h
        · exact Or.inr (List.mem_cons_of_mem _ h)
      · rintro (h | h)
        · exact Or.inl h
        · rcases List.mem_cons.mp h with h | h
          · exact Or.inl (h ▸ hx)
          · exact Or.inr h
    · rw [if_neg hx]
      simp only [List.mem_append, List.mem_singleton, List.mem_cons]
      tauto

theorem mem_uniqList {α : Type} [DecidableEq α] {xs : List α} {a : α} :
    a ∈ uniqList xs ↔ a ∈ xs := by
  unfold uniqList
  rw [mem_foldl_insertIfAbsent]
  simp

theorem nodup_foldl_insertIfAbsent {α : Type} [DecidableEq α] (xs : List α) :
    ∀ acc : List α, acc.Nodup → (xs.foldl insertIfAbsent acc).Nodup := by
  induction xs with
  | nil => intro acc h; simpa using h
  | cons x xs ih =>
    intro acc h
    rw [List.foldl_cons]
    apply ih
    unfold insertIfAbsent
    by_cases hx : x ∈ acc
    · rw [if_pos hx]; exact h
    · rw [if_neg hx]
      simp only [List.nodup_append, List.nodup_singleton, List.disjoint_singleton]
      exact ⟨h, trivial, hx⟩

theorem nodup_uniqList {α : Type} [DecidableEq α] (xs : List α) :
    (uniqList xs).Nodup :=
  nodup_foldl_insertIfAbsent xs [] List.nodup_nil

theorem toFinset_uniqList {α : Type} [DecidableEq α] (xs : List α) :
    (uniqList xs).toFinset = xs.toFinset := by
  ext a
  simp [List.mem_toFinset, mem_uniqList]

/-- The length of the deduplicated list is the number of distinct values. -/
theorem length_uniqList_eq_card {α : Type} [DecidableEq α] (xs : List α) :
    (uniqList xs).length = xs.toFinset.card := by
  rw [← toFinset_uniqList, List.toFinset_card_of_nodup (nodup_uniqList xs)]

theorem uniqueIndex_lt {α : Type} [DecidableEq α] {xs : List α} {x : α}
    (h : x ∈ xs) : uniqueIndex xs x < (uniqList xs).length :=
  List.indexOf_lt_length.mpr (mem_uniqList.mpr h)

theorem getD_uniqueIndex {α : Type} [DecidableEq α] {xs : List α} {x : α}
    (h : x ∈ xs) (d : α) : (uniqList xs).getD (uniqueIndex xs x) d = x := by
  rw [List.getD_eq_getElem _ _ (uniqueIndex_lt h)]
  exact List.getElem_indexOf _

/-- Two values of the original list with the same unique index are equal:
the dedup mapper never coalesces distinct values. -/
theorem uniqueIndex_inj {α : Type} [DecidableEq α] {xs : List α} {x y : α}
    (hx : x ∈ xs) (hy : y ∈ xs)
    (h : uniqueIndex xs x = uniqueIndex xs y) : x = y := by
  have h1 := getD_uniqueIndex hx x
  have h2 := getD_uniqueIndex hy x
  rw [← h1, ← h2, h]

/-- A Jones matrix: 4 complex numbers, each represented as a pair of
rationals (real and imaginary part), in the canonical entry order 0..3. -/
structure JonesMatrix where
  e0 : ℚ × ℚ
  e1 : ℚ × ℚ
  e2 : ℚ × ℚ
  e3 : ℚ × ℚ
  deriving DecidableEq, Inhabited

/-- The all-zero Jones matrix. -/
def zeroJones : JonesMatrix := ⟨(0, 0), (0, 0), (0, 0), (0, 0)⟩

/-- Modelled from the spec: the out-of-scope Capability Interface contract
`compute(tileConfig, frequency, direction) -> JonesMatrix`, kept fully
abstract. -/
def Capability : Type := TileConfig → Nat → ℚ × ℚ → JonesMatrix

/-- Modelled from the spec: the GPU batch engine's raw result, indexed by
unique tile index and unique frequency index; the engine evaluates the
capability only on deduplicated configurations. -/
def gpu_jones (f : Capability) (tiles : List TileConfig) (freqs : List Nat)
    (u v : Nat) (dir : ℚ × ℚ) : JonesMatrix :=
  f ((uniqList tiles).getD u default) ((uniqList freqs).getD v 0) dir

/-- Modelled from the spec: the GPU result seen at an original position,
obtained by translating the original indices through the two
`UniqueIndexMap`s. -/
def gpu_translated (f : Capability) (tiles : List TileConfig)
    (freqs : List Nat) (i j : Nat) (dir : ℚ × ℚ) : JonesMatrix :=
  gpu_jones f tiles freqs ((tile_map tiles).getD i 0) ((freq_map freqs).getD j 0) dir

/-- Modelled from the spec: the CpuParallelEngine result at an original
position, computed directly from the original (non-deduplicated) inputs. -/
def cpu_jones (f : Capability) (tiles : List TileConfig) (freqs : List Nat)
    (i j : Nat) (dir : ℚ × ℚ) : JonesMatrix :=
  f (tiles.getD i default) (freqs.getD j 0) dir

/-- Elementwise absolute-difference bound between two Jones matrices, over
all 8 floating-point components. -/
def entryAbsDiffLe (a b : JonesMatrix) (ε : ℚ) : Prop :=
  |a.e0.1 - b.e0.1| ≤ ε ∧ |a.e0.2 - b.e0.2| ≤ ε ∧
  |a.e1.1 - b.e1.1| ≤ ε ∧ |a.e1.2 - b.e1.2| ≤ ε ∧
  |a.e2.1 - b.e2.1| ≤ ε ∧ |a.e2.2 - b.e2.2| ≤ ε ∧
  |a.e3.1 - b.e3.1| ≤ ε ∧ |a.e3.2 - b.e3.2| ≤ ε

/-- Modelled from the spec: the IAU-order axis reordering applied by
PostProcessing — swap entry 0 with entry 3 and entry 1 with entry 2. -/
def iau_reorder (j : JonesMatrix) : JonesMatrix :=
  ⟨j.e3, j.e2, j.e1, j.e0⟩

/-- Delay row shared by tiles 0, 2 and 3 of the deduplication test. -/
def testDelaysA : List Nat := [3, 2, 1, 0, 3, 2, 1, 0, 3, 2, 1, 0, 3, 2, 1, 0]

/-- Delay row of tile 1 of the deduplication test: one dipole's delay is the
sentinel 32 instead of 3. -/
def testDelaysB : List Nat := [32, 2, 1, 0, 3, 2, 1, 0, 3, 2, 1, 0, 3, 2, 1, 0]

/-- Amplitude row of all ones. -/
def testAmpsOnes : List ℚ := List.replicate 16 1

/-- Amplitude row of tile 2 of the deduplication test: the first dipole gain
is 0 instead of 1. -/
def testAmpsZeroFirst : List ℚ := 0 :: List.replicate 15 1

def testTile0 : TileConfig := ⟨testDelaysA, testAmpsOnes⟩

def testTile1 : TileConfig := ⟨testDelaysB, testAmpsOnes⟩

def testTile2 : TileConfig := ⟨testDelaysA, testAmpsZeroFirst⟩

/-- The four tiles of `test_cuda_calc_jones_deduplication`. -/
def dedupTestTiles : List TileConfig := [testTile0, testTile1, testTile2, testTile0]

/-- The six frequencies of `test_cuda_calc_jones_deduplication`. -/
def dedupTestFreqs : List Nat :=
  [150000000, 200000000, 250000000, 150000000, 200000000, 250000001]

/-- C1: for every capability, tile list, (post-snap) frequency list and
direction, the GPU-path batch result translated through the tile and
frequency `UniqueIndexMap`s equals the CPU engine's result computed directly
from the original (non-deduplicated) inputs; the results are exactly equal
in the model, hence elementwise within every nonnegative tolerance,
including the stated 1e-15 (double) and 1e-6/1e-7 (single) bounds. -/
theorem gpu_dedup_refines_cpu (f : Capability) (tiles : List TileConfig)
    (freqs : List Nat) (i j : Nat) (dir : ℚ × ℚ)
    (hi : i < tiles.length) (hj : j < freqs.length) :
    gpu_translated f tiles freqs i j dir = cpu_jones f tiles freqs i j dir ∧
    ∀ ε : ℚ, 0 ≤ ε →
      entryAbsDiffLe (gpu_translated f tiles freqs i j dir)
        (cpu_jones f tiles freqs i j dir) ε := by
  have htile : (tile_map tiles).getD i 0 = uniqueIndex tiles tiles[i] := by
    rw [tile_map, List.getD_eq_getElem _ _ (by simpa using hi), List.getElem_map]
  have hfreq : (freq_map freqs).getD j 0 = uniqueIndex freqs freqs[j] := by
    rw [freq_map, List.getD_eq_getElem _ _ (by simpa using hj), List.getElem_map]
  have hmemt : tiles[i] ∈ tiles := List.getElem_mem _
  have hmemf : freqs[j] ∈ freqs := List.getElem_mem _
  have hgt : (uniqList tiles).getD (uniqueIndex tiles tiles[i]) default = tiles[i] :=
    getD_uniqueIndex hmemt default
  have hgf : (uniqList freqs).getD (uniqueIndex freqs freqs[j]) 0 = freqs[j] :=
    getD_uniqueIndex hmemf 0
  have heq : gpu_translated f tiles freqs i j dir = cpu_jones f tiles freqs i j dir := by
    rw [gpu_translated, gpu_jones, htile, hfreq, hgt, hgf, cpu_jones,
      List.getD_eq_getElem tiles default hi, List.getD_eq_getElem freqs 0 hj]
  refine ⟨heq, fun ε hε => ?_⟩
  rw [heq]
  simp [entryAbsDiffLe, sub_self, abs_zero, hε]

/-- A sample capability used to instantiate the refinement theorem on
concrete inputs. -/
def sampleCapability : Capability :=
  fun t n dir => ⟨((t.delays.sum : ℚ), (n : ℚ)), dir, dir, ((t.amps.sum), 0)⟩

theorem gpu_dedup_refines_cpu_witness :
    gpu_translated sampleCapability dedupTestTiles dedupTestFreqs 3 5 (1, 2) =
      cpu_jones sampleCapability dedupTestTiles dedupTestFreqs 3 5 (1, 2) ∧
    ∀ ε : ℚ, 0 ≤ ε →
      entryAbsDiffLe
        (gpu_translated sampleCapability dedupTestTiles dedupTestFreqs 3 5 (1, 2))
        (cpu_jones sampleCapability dedupTestTiles dedupTestFreqs 3 5 (1, 2)) ε :=
  gpu_dedup_refines_cpu sampleCapability dedupTestTiles dedupTestFreqs 3 5 (1, 2)
    (by decide) (by decide)

/-- C2: for every tile list, `num_unique_tiles` equals the number of
distinct `TileConfig` values (distinctness being elementwise equality of the
delay and amplitude sequences); and whenever a tile of the list carries the
sentinel delay 32 at some position while another tile carries a different
delay at that position, the two are never assigned the same unique index,
regardless of the remaining values. -/
theorem num_unique_tiles_eq_card_and_sentinel_distinct
    (tiles : List TileConfig) :
    num_unique_tiles tiles = tiles.toFinset.card ∧
    ∀ t1 t2 : TileConfig, ∀ p d2 : Nat, t1 ∈ tiles → t2 ∈ tiles →
      t1.delays.get? p = some 32 → t2.delays.get? p = some d2 → d2 ≠ 32 →
      uniqueIndex tiles t1 ≠ uniqueIndex tiles t2 := by
  refine ⟨length_uniqList_eq_card tiles, ?_⟩
  intro t1 t2 p d2 h1 h2 hp1 hp2 hd heq
  have ht : t1 = t2 := uniqueIndex_inj h1 h2 heq
  rw [ht, hp2] at hp1
  exact hd (Option.some_inj.mp hp1)

theorem num_unique_tiles_eq_card_and_sentinel_distinct_witness :
    num_unique_tiles dedupTestTiles = dedupTestTiles.toFinset.card ∧
    uniqueIndex dedupTestTiles testTile1 ≠ uniqueIndex dedupTestTiles testTile0 :=
  ⟨(num_unique_tiles_eq_card_and_sentinel_distinct dedupTestTiles).1,
   (num_unique_tiles_eq_card_and_sentinel_distinct dedupTestTiles).2 testTile1
     testTile0 0 3 (by decide) (by decide) (by decide) (by decide) (by decide)⟩

/-- C3 counterexample: the scenario as the claim words it cannot produce the
stated counts.  If tiles at original positions 0, 2 and 3 really shared one
delay/amplitude pattern and only position 1 differed, there would be 2 unique
tiles, not 3; and deduplicating the six raw frequency values under exact
integer equality with 250e6 and 250000001 kept distinct gives 4 unique
frequencies, not 3. -/
theorem dedup_scenario_counterexample :
    num_unique_tiles [testTile0, testTile1, testTile0, testTile0] = 2 ∧
    num_unique_freqs dedupTestFreqs = 4 := by decide

/-- C3 amended: in the actual test scenario position 2 differs from the
shared pattern by one amplitude (0 instead of 1), so the 4 tiles give 3
unique tiles; and the 6 frequencies are first snapped by the coefficient
store's closest-frequency lookup, under which 250000000 and 250000001
coincide, so the snapped values give 3 unique frequencies; the dedup layer
itself compares the snapped values by exact integer equality. -/
theorem dedup_scenario_amended (snap : Nat → Nat)
    (h1 : snap 250000000 = snap 250000001)
    (h2 : snap 150000000 ≠ snap 200000000)
    (h3 : snap 150000000 ≠ snap 250000000)
    (h4 : snap 200000000 ≠ snap 250000000) :
    num_unique_tiles dedupTestTiles = 3 ∧
    num_unique_freqs (dedupTestFreqs.map snap) = 3 ∧
    uniqueIndex dedupTestTiles testTile0 ≠ uniqueIndex dedupTestTiles testTile1 := by
  refine ⟨by decide, ?_, by decide⟩
  simp only [dedupTestFreqs, List.map_cons, List.map_nil, ← h1]
  simp [num_unique_freqs, uniqList, insertIfAbsent, List.foldl,
    h2, h3, h4, h2.symm, h3.symm, h4.symm]

theorem dedup_scenario_amended_witness :
    num_unique_tiles dedupTestTiles = 3 ∧
    num_unique_freqs (dedupTestFreqs.map
      (fun f => if f = 250000001 then 250000000 else f)) = 3 ∧
    uniqueIndex dedupTestTiles testTile0 ≠ uniqueIndex dedupTestTiles testTile1 :=
  dedup_scenario_amended (fun f => if f = 250000001 then 250000000 else f)
    (by decide) (by decide) (by decide) (by decide)

/-- C4: requesting IAU order permutes the Jones matrix entries by swapping
entry 0 with entry 3 and entry 1 with entry 2, and the reordering is an
involution. -/
theorem iau_reorder_swaps_and_involutive (j : JonesMatrix) :
    (iau_reorder j).e0 = j.e3 ∧ (iau_reorder j).e1 = j.e2 ∧
    (iau_reorder j).e2 = j.e1 ∧ (iau_reorder j).e3 = j.e0 ∧
    iau_reorder (iau_reorder j) = j :=
  ⟨rfl, rfl, rfl, rfl, rfl⟩

/-- Modelled from the spec: the out-of-scope numeric capability's dependence
on the dipole amplitude gains.  A tile is "a phased array of dipole antenna
elements combined by per-dipole delay and amplitude settings"; its response
is the amplitude-weighted sum of per-dipole contributions, i.e. the
evaluation at a direction/frequency-dependent point of the polynomial whose
coefficients are the dipole gains (the array factor in its z-transform
form). -/
def elementResponse (amps : List ℚ) (z : ℚ) : ℚ :=
  ∑ d in Finset.range amps.length, amps.getD d 0 * z ^ d

/-- Modelled from the spec: the direction/frequency/delay-dependent
evaluation point of the array factor.  For a fixed zenith angle, frequency
and delay setting it ranges over all of ℚ as the azimuth varies. -/
def phasePoint (az za : ℚ) (freq : Nat) (delays : List Nat) : ℚ :=
  az + za * (freq : ℚ) + (delays.sum : ℚ)

/-- Modelled from the spec: the raw (pre-post-processing) Jones matrix a
tile produces for one direction and frequency. -/
def jonesResponse (amps : List ℚ) (delays : List Nat) (az za : ℚ)
    (freq : Nat) : JonesMatrix :=
  let r := elementResponse amps (phasePoint az za freq delays)
  ⟨(r, 0), (r, 0), (r, 0), (r, 0)⟩

theorem elementResponse_eq_zero (amps : List ℚ) (h : ∀ a ∈ amps, a = 0)
    (z : ℚ) : elementResponse amps z = 0 := by
  apply Finset.sum_eq_zero
  intro d hd
  rw [Finset.mem_range] at hd
  rw [List.getD_eq_getElem _ _ hd, h _ (List.getElem_mem _), zero_mul]

theorem elementResponse_exists_ne_zero (amps : List ℚ)
    (h : ∃ a ∈ amps, a ≠ 0) : ∃ z : ℚ, elementResponse amps z ≠ 0 := by
  obtain ⟨a, ha, hne⟩ := h
  obtain ⟨k, hk, hget⟩ := List.mem_iff_getElem.mp ha
  set p : Polynomial ℚ :=
    ∑ d in Finset.range amps.length,
      Polynomial.C (amps.getD d 0) * Polynomial.X ^ d with hp
  have heval : ∀ z, elementResponse amps z = p.eval z := by
    intro z
    rw [hp, Polynomial.eval_finset_sum]
    refine Finset.sum_congr rfl fun d _ => ?_
    simp
  have hcoeff : p.coeff k = amps.getD k 0 := by
    rw [hp, Polynomial.finset_sum_coeff]
    have hrw : ∀ d ∈ Finset.range amps.length,
        (Polynomial.C (amps.getD d 0) * Polynomial.X ^ d).coeff k =
          if k = d then amps.getD d 0 else 0 :=
      fun d _ => Polynomial.coeff_C_mul_X_pow _ _ _
    rw [Finset.sum_congr rfl hrw, Finset.sum_ite_eq]
    simp [Finset.mem_range.mpr hk]
  have hgetk : amps.getD k 0 = a := by
    rw [List.getD_eq_getElem _ _ hk, hget]
  have hpne : p ≠ 0 := by
    intro h0
    rw [h0, Polynomial.coeff_zero] at hcoeff
    exact hne (by rw [← hgetk, ← hcoeff])
  have hfin := Polynomial.finite_setOf_isRoot hpne
  obtain ⟨z, hz⟩ := hfin.infinite_compl.nonempty
  refine ⟨z, fun hzero => hz ?_⟩
  rw [heval] at hzero
  exact hzero

/-- C8: a tile whose amplitude vector is all zeros produces the all-zero
Jones matrix for every direction and frequency; and a tile with at least one
nonzero amplitude produces, for every zenith angle, frequency and delay
setting, a nonzero Jones matrix at some azimuth (so a direction batch
sweeping the azimuth contains a nonzero entry). -/
theorem zero_amps_zero_jones (amps : List ℚ) (delays : List Nat) :
    ((∀ a ∈ amps, a = 0) →
      ∀ (az za : ℚ) (freq : Nat),
        jonesResponse amps delays az za freq = zeroJones) ∧
    ((∃ a ∈ amps, a ≠ 0) →
      ∀ (za : ℚ) (freq : Nat),
        ∃ az : ℚ, jonesResponse amps delays az za freq ≠ zeroJones) := by
  constructor
  · intro h az za freq
    simp [jonesResponse, elementResponse_eq_zero amps h, zeroJones]
  · intro h za freq
    obtain ⟨z, hz⟩ := elementResponse_exists_ne_zero amps h
    refine ⟨z - za * (freq : ℚ) - (delays.sum : ℚ), fun hcontra => hz ?_⟩
    have hzp : phasePoint (z - za * (freq : ℚ) - (delays.sum : ℚ)) za freq delays = z := by
      unfold phasePoint; ring
    have h0 := congrArg (fun m => m.e0.1) hcontra
    simp only [jonesResponse] at h0
    rw [hzp] at h0
    simpa [zeroJones] using h0

theorem zero_amps_zero_jones_witness :
    jonesResponse (List.replicate 16 (0 : ℚ)) testDelaysA 1 1 150 = zeroJones ∧
    ∃ az : ℚ, jonesResponse testAmpsOnes testDelaysA az 1 150 ≠ zeroJones :=
  ⟨(zero_amps_zero_jones (List.replicate 16 (0 : ℚ)) testDelaysA).1
      (by decide) 1 1 150,
   (zero_amps_zero_jones testAmpsOnes testDelaysA).2 (by decide) 1 150⟩

/-- Componentwise addition of complex numbers represented as rational
pairs. -/
def cAdd (x y : ℚ × ℚ) : ℚ × ℚ := (x.1 + y.1, x.2 + y.2)

/-- Scaling of a complex number (rational pair) by a rational. -/
def cSmul (r : ℚ) (x : ℚ × ℚ) : ℚ × ℚ := (r * x.1, r * x.2)

/-- Modelled from the spec: rotation of a Jones matrix by an angle given
through its cosine and sine — right-multiplication by the rotation matrix
with rows (c, -s) and (s, c). -/
def rotateJones (c s : ℚ) (j : JonesMatrix) : JonesMatrix :=
  ⟨cAdd (cSmul c j.e0) (cSmul s j.e1),
   cAdd (cSmul c j.e1) (cSmul (-s) j.e0),
   cAdd (cSmul c j.e2) (cSmul s j.e3),
   cAdd (cSmul c j.e3) (cSmul (-s) j.e2)⟩

/-- Modelled from the spec: a rational stand-in for the tangent of half the
parallactic angle implied by (direction, latitude); it vanishes at zenith
and is generically nonzero away from it. -/
def paT (az za lat : ℚ) : ℚ := za * (az - lat)

/-- Cosine of the modelled parallactic angle, via the rational
parametrisation of the unit circle. -/
def paCos (az za lat : ℚ) : ℚ :=
  (1 - paT az za lat ^ 2) / (1 + paT az za lat ^ 2)

/-- Sine of the modelled parallactic angle. -/
def paSin (az za lat : ℚ) : ℚ :=
  2 * paT az za lat / (1 + paT az za lat ^ 2)

/-- Modelled from the spec: with a latitude supplied, PostProcessing rotates
each Jones matrix by the parallactic angle implied by (direction, latitude);
with latitude omitted the matrix is returned untouched. -/
def applyParallactic (lat : Option ℚ) (az za : ℚ) (j : JonesMatrix) :
    JonesMatrix :=
  match lat with
  | none => j
  | some l => rotateJones (paCos az za l) (paSin az za l) j

/-- Modelled from the spec: the full per-direction pipeline — raw response
followed by the optional parallactic-angle correction. -/
def computeDirection (amps : List ℚ) (delays : List Nat) (az za : ℚ)
    (freq : Nat) (lat : Option ℚ) : JonesMatrix :=
  applyParallactic lat az za (jonesResponse amps delays az za freq)

theorem rot_fix_scalar {c s a b : ℚ} (hcs : c ^ 2 + s ^ 2 = 1) (hs : s ≠ 0)
    (h1 : c * a + s * b = a) (h2 : c * b - s * a = b) : a = 0 ∧ b = 0 := by
  have hc1 : c ≠ 1 := by
    intro hc
    rw [hc] at hcs
    have hs2 : s ^ 2 = 0 := by linarith
    exact hs (sq_eq_zero_iff.mp hs2)
  have e1 : (1 - c) * a = s * b := by ring_nf; linarith
  have e2 : (1 - c) * b = -(s * a) := by ring_nf; linarith
  have key : ((1 - c) ^ 2 + s ^ 2) * a = 0 := by
    have h3 : (1 - c) * ((1 - c) * a) = (1 - c) * (s * b) := by rw [e1]
    have h4 : (1 - c) * (s * b) = s * ((1 - c) * b) := by ring
    rw [h4, e2] at h3
    linear_combination h3
  have hcne : (1 : ℚ) - c ≠ 0 := sub_ne_zero.mpr (Ne.symm hc1)
  have hpos : ((1 : ℚ) - c) ^ 2 + s ^ 2 ≠ 0 := by positivity
  have ha : a = 0 := by
    rcases mul_eq_zero.mp key with h | h
    · exact absurd h hpos
    · exact h
  refine ⟨ha, ?_⟩
  rw [ha, mul_zero] at e1
  rcases mul_eq_zero.mp e1.symm with h | h
  · exact absurd h hs
  · exact h

theorem rotateJones_ne_self {c s : ℚ} (j : JonesMatrix)
    (hcs : c ^ 2 + s ^ 2 = 1) (hs : s ≠ 0) (hj : j ≠ zeroJones) :
    rotateJones c s j ≠ j := by
  intro heq
  apply hj
  obtain ⟨⟨a0, b0⟩, ⟨a1, b1⟩, ⟨a2, b2⟩, ⟨a3, b3⟩⟩ := j
  simp only [rotateJones, cAdd, cSmul, JonesMatrix.mk.injEq, Prod.mk.injEq] at heq
  obtain ⟨⟨q1, q2⟩, ⟨q3, q4⟩, ⟨q5, q6⟩, ⟨q7, q8⟩⟩ := heq
  have r1 := rot_fix_scalar hcs hs q1 (by linarith [q3] : c * a1 - s * a0 = a1)
  have r2 := rot_fix_scalar hcs hs q2 (by linarith [q4] : c * b1 - s * b0 = b1)
  have r3 := rot_fix_scalar hcs hs q5 (by linarith [q7] : c * a3 - s * a2 = a3)
  have r4 := rot_fix_scalar hcs hs q6 (by linarith [q8] : c * b3 - s * b2 = b3)
  simp [zeroJones, r1.1, r1.2, r2.1, r2.2, r3.1, r3.2, r4.1, r4.2]

theorem paCos_sq_add_paSin_sq (az za lat : ℚ) :
    paCos az za lat ^ 2 + paSin az za lat ^ 2 = 1 := by
  unfold paCos paSin
  have hne : (1 : ℚ) + paT az za lat ^ 2 ≠ 0 := by positivity
  field_simp
  ring

/-- C9 counterexample: for the all-zero-amplitude tile the raw response is
the zero matrix, which every rotation fixes, so supplying a latitude yields
exactly the same result as omitting it even for a direction away from zenith
(za = 1) at which the modelled parallactic rotation is nontrivial. -/
theorem parallactic_counterexample :
    computeDirection (List.replicate 16 (0 : ℚ)) testDelaysA 1 1 150 (some (1/2)) =
      computeDirection (List.replicate 16 (0 : ℚ)) testDelaysA 1 1 150 none ∧
    paT 1 1 (1/2) ≠ 0 ∧ (1 : ℚ) ≠ 0 := by
  have hz : jonesResponse (List.replicate 16 (0 : ℚ)) testDelaysA 1 1 150 = zeroJones := by
    have hall : ∀ a ∈ List.replicate 16 (0 : ℚ), a = 0 :=
      fun a ha => List.eq_of_mem_replicate ha
    unfold jonesResponse
    rw [elementResponse_eq_zero _ hall]
    rfl
  refine ⟨?_, ?_, ?_⟩
  · unfold computeDirection applyParallactic
    rw [hz]
    simp [rotateJones, cAdd, cSmul, zeroJones]
  · norm_num [paT]
  · norm_num

/-- C9 amended: for a direction away from zenith at which the parallactic
rotation is nontrivial, and for inputs whose uncorrected response is not the
zero matrix, supplying a latitude changes at least one matrix entry relative
to omitting it. -/
theorem parallactic_changes_result (amps : List ℚ) (delays : List Nat)
    (az za lat : ℚ) (freq : Nat) (hza : za ≠ 0)
    (ht : paT az za lat ≠ 0)
    (hj : jonesResponse amps delays az za freq ≠ zeroJones) :
    computeDirection amps delays az za freq (some lat) ≠
      computeDirection amps delays az za freq none := by
  unfold computeDirection applyParallactic
  apply rotateJones_ne_self _ (paCos_sq_add_paSin_sq az za lat) _ hj
  unfold paSin
  have hden : (1 : ℚ) + paT az za lat ^ 2 ≠ 0 := by positivity
  exact div_ne_zero (by simpa using ht) hden

theorem parallactic_changes_result_witness :
    computeDirection [1] [] 1 1 0 (some 0) ≠ computeDirection [1] [] 1 1 0 none :=
  parallactic_changes_result [1] [] 1 1 0 0 (by norm_num) (by norm_num [paT])
    (by norm_num [jonesResponse, elementResponse, Finset.sum_range_one, zeroJones,
      JonesMatrix.mk.injEq, Prod.mk.injEq])

/-- Observable actions of an FFI boundary function, in program order:
dereferences of caller-supplied pointers, writes to caller-visible out
parameters, updates of the retrievable last-error slot, and
installation/removal of the process-wide panic hook. -/
inductive FfiEvent where
  | derefLatitude
  | derefBeam
  | derefDelays
  | derefAmps
  | derefDirections
  | derefFreqs
  | writeJones
  | writeBeamHandle
  | writeGpuBeamHandle
  | setLastError (msg : String)
  | setHook
  | takeHook
  deriving DecidableEq

/-- The outcome of one FFI boundary call: the returned status code and the
trace of observable actions the call performed, in order. -/
structure FfiResult where
  status : Int
  events : List FfiEvent
  deriving DecidableEq

/-- Shallow embedding of `fee_calc_jones` (src/fee/ffi/mod.rs:175-240).
`num_amps` is checked against 16/32, `norm_to_zenith` against 0/1, then the
latitude pointer is read (`latitude_rad.as_ref()`), then `iau_order` is
checked against 0/1; only then are the beam, delay and amp pointers
dereferenced and `calc_jones_pair` called, whose outcome is the `outcome`
parameter.  On success the 8-double `jones` buffer is written and 0 is
returned; every failure returns 1 after recording a message. -/
def fee_calc_jones (num_amps norm_to_zenith iau_order : Nat)
    (outcome : Except String Unit) : FfiResult :=
  if num_amps = 16 ∨ num_amps = 32 then
    if norm_to_zenith = 0 ∨ norm_to_zenith = 1 then
      if iau_order = 0 ∨ iau_order = 1 then
        match outcome with
        | Except.ok _ =>
          ⟨0, [FfiEvent.derefLatitude, FfiEvent.derefBeam, FfiEvent.derefDelays,
               FfiEvent.derefAmps, FfiEvent.writeJones]⟩
        | Except.error e =>
          ⟨1, [FfiEvent.derefLatitude, FfiEvent.derefBeam, FfiEvent.derefDelays,
               FfiEvent.derefAmps, FfiEvent.setLastError e]⟩
      else
        ⟨1, [FfiEvent.derefLatitude,
             FfiEvent.setLastError "A value other than 0 or 1 was used for iau_order"]⟩
    else
      ⟨1, [FfiEvent.setLastError "A value other than 0 or 1 was used for norm_to_zenith"]⟩
  else
    ⟨1, [FfiEvent.setLastError "A value other than 16 or 32 was used for num_amps"]⟩

/-- Shallow embedding of `fee_calc_jones_array` (src/fee/ffi/mod.rs:294-352).
Identical validation order to `fee_calc_jones`; on the valid path the
direction arrays are also dereferenced and the result buffer is written by
the inner call.  The `ffi_error` macro is not among the provided sources; it
is modelled per the spec's status scheme: on error record the message and
return 1. -/
def fee_calc_jones_array (num_amps norm_to_zenith iau_order : Nat)
    (outcome : Except String Unit) : FfiResult :=
  if num_amps = 16 ∨ num_amps = 32 then
    if norm_to_zenith = 0 ∨ norm_to_zenith = 1 then
      if iau_order = 0 ∨ iau_order = 1 then
        match outcome with
        | Except.ok _ =>
          ⟨0, [FfiEvent.derefLatitude, FfiEvent.derefBeam, FfiEvent.derefDirections,
               FfiEvent.derefDelays, FfiEvent.derefAmps, FfiEvent.writeJones]⟩
        | Except.error e =>
          ⟨1, [FfiEvent.derefLatitude, FfiEvent.derefBeam, FfiEvent.derefDirections,
               FfiEvent.derefDelays, FfiEvent.derefAmps, FfiEvent.setLastError e]⟩
      else
        ⟨1, [FfiEvent.derefLatitude,
             FfiEvent.setLastError "A value other than 0 or 1 was used for iau_order"]⟩
    else
      ⟨1, [FfiEvent.setLastError "A value other than 0 or 1 was used for norm_to_zenith"]⟩
  else
    ⟨1, [FfiEvent.setLastError "A value other than 16 or 32 was used for num_amps"]⟩

/-- Shallow embedding of `new_fee_beam` (src/fee/ffi/mod.rs:43-79).  The
panic hook is installed first; the body (path UTF-8 validation, then
`FEEBeam::new`, whose outcome is `load`) runs under `catch_unwind`, a panic
anywhere in it being the `fatal` parameter; the hook is removed; finally the
outcome maps to a status: success writes the handle and returns 0, invalid
path returns 2, load failure returns 1, intercepted panic returns -1. -/
def new_fee_beam (path_valid : Bool) (load : Except String Unit)
    (fatal : Option String) : FfiResult :=
  match fatal with
  | some msg => ⟨-1, [FfiEvent.setHook, FfiEvent.setLastError msg, FfiEvent.takeHook]⟩
  | none =>
    if path_valid then
      match load with
      | Except.ok _ => ⟨0, [FfiEvent.setHook, FfiEvent.takeHook, FfiEvent.writeBeamHandle]⟩
      | Except.error e => ⟨1, [FfiEvent.setHook, FfiEvent.setLastError e, FfiEvent.takeHook]⟩
    else
      ⟨2, [FfiEvent.setHook, FfiEvent.setLastError "path is not valid UTF-8",
           FfiEvent.takeHook]⟩

/-- Shallow embedding of `new_fee_beam_from_env` (src/fee/ffi/mod.rs:97-121):
as `new_fee_beam` but with no path argument, so no validation failure class
exists and the codes are 0 (success), 1 (load failure) and -1 (panic). -/
def new_fee_beam_from_env (load : Except String Unit)
    (fatal : Option String) : FfiResult :=
  match fatal with
  | some msg => ⟨-1, [FfiEvent.setHook, FfiEvent.setLastError msg, FfiEvent.takeHook]⟩
  | none =>
    match load with
    | Except.ok _ => ⟨0, [FfiEvent.setHook, FfiEvent.takeHook, FfiEvent.writeBeamHandle]⟩
    | Except.error e => ⟨1, [FfiEvent.setHook, FfiEvent.setLastError e, FfiEvent.takeHook]⟩

/-- Shallow embedding of `new_gpu_fee_beam` (src/fee/ffi/mod.rs:436-472).
`num_amps` and `norm_to_zenith` are validated before the frequency, amp,
delay and beam pointers are dereferenced; `gpu_prepare`'s outcome is the
`prepare` parameter; success writes the GPU handle and returns 0. -/
def new_gpu_fee_beam (num_amps norm_to_zenith : Nat)
    (prepare : Except String Unit) : FfiResult :=
  if num_amps = 16 ∨ num_amps = 32 then
    if norm_to_zenith = 0 ∨ norm_to_zenith = 1 then
      match prepare with
      | Except.ok _ =>
        ⟨0, [FfiEvent.derefFreqs, FfiEvent.derefAmps, FfiEvent.derefDelays,
             FfiEvent.derefBeam, FfiEvent.writeGpuBeamHandle]⟩
      | Except.error e =>
        ⟨1, [FfiEvent.derefFreqs, FfiEvent.derefAmps, FfiEvent.derefDelays,
             FfiEvent.derefBeam, FfiEvent.setLastError e]⟩
    else
      ⟨1, [FfiEvent.setLastError "A value other than 0 or 1 was used for norm_to_zenith"]⟩
  else
    ⟨1, [FfiEvent.setLastError "A value other than 16 or 32 was used for num_amps"]⟩

/-- Shallow embedding of `fee_calc_jones_gpu` (src/fee/ffi/mod.rs:509-542):
`iau_order` is validated before the beam, direction and latitude pointers
are dereferenced and the device computation runs. -/
def fee_calc_jones_gpu (iau_order : Nat) (outcome : Except String Unit) : FfiResult :=
  if iau_order = 0 ∨ iau_order = 1 then
    match outcome with
    | Except.ok _ =>
      ⟨0, [FfiEvent.derefBeam, FfiEvent.derefDirections, FfiEvent.derefLatitude,
           FfiEvent.writeJones]⟩
    | Except.error e =>
      ⟨1, [FfiEvent.derefBeam, FfiEvent.derefDirections, FfiEvent.derefLatitude,
           FfiEvent.setLastError e]⟩
  else
    ⟨1, [FfiEvent.setLastError "A value other than 0 or 1 was used for iau_order"]⟩

/-- Shallow embedding of `fee_calc_jones_gpu_device`
(src/fee/ffi/mod.rs:579-615); device transfer failures are folded into the
`outcome` parameter. -/
def fee_calc_jones_gpu_device (iau_order : Nat) (outcome : Except String Unit) : FfiResult :=
  if iau_order = 0 ∨ iau_order = 1 then
    match outcome with
    | Except.ok _ =>
      ⟨0, [FfiEvent.derefBeam, FfiEvent.derefDirections, FfiEvent.derefLatitude,
           FfiEvent.writeJones]⟩
    | Except.error e =>
      ⟨1, [FfiEvent.derefBeam, FfiEvent.derefDirections, FfiEvent.derefLatitude,
           FfiEvent.setLastError e]⟩
  else
    ⟨1, [FfiEvent.setLastError "A value other than 0 or 1 was used for iau_order"]⟩

/-- Shallow embedding of `fee_calc_jones_gpu_device_inner`
(src/fee/ffi/mod.rs:650-678): all buffers are already device-resident, so
only the beam handle is dereferenced after validation. -/
def fee_calc_jones_gpu_device_inner (iau_order : Nat)
    (outcome : Except String Unit) : FfiResult :=
  if iau_order = 0 ∨ iau_order = 1 then
    match outcome with
    | Except.ok _ => ⟨0, [FfiEvent.derefBeam, FfiEvent.writeJones]⟩
    | Except.error e => ⟨1, [FfiEvent.derefBeam, FfiEvent.setLastError e]⟩
  else
    ⟨1, [FfiEvent.setLastError "A value other than 0 or 1 was used for iau_order"]⟩

/-- Whether an event records an error message. -/
def isErrMsg : FfiEvent → Bool
  | FfiEvent.setLastError _ => true
  | _ => false

/-- A boundary call rejected an input cleanly: nonzero status, an error
message recorded, and none of the caller-supplied data pointers (delays,
amps, directions) dereferenced nor any out parameter written. -/
def rejectsCleanly (r : FfiResult) : Prop :=
  r.status ≠ 0 ∧ (∃ e ∈ r.events, isErrMsg e = true) ∧
  FfiEvent.derefDelays ∉ r.events ∧ FfiEvent.derefAmps ∉ r.events ∧
  FfiEvent.derefDirections ∉ r.events ∧ FfiEvent.writeJones ∉ r.events ∧
  FfiEvent.writeBeamHandle ∉ r.events ∧ FfiEvent.writeGpuBeamHandle ∉ r.events

instance (r : FfiResult) : Decidable (rejectsCleanly r) := by
  unfold rejectsCleanly
  infer_instance

/-- C5: every boundary compute or construction function taking `num_amps`
rejects values other than exactly 16 or 32, and every function taking the
`norm_to_zenith` or `iau_order` flag rejects values other than exactly 0 or
1, returning a nonzero validation status with an error message recorded and
without dereferencing the caller's delay, amp or direction pointers or
writing any output buffer or handle. -/
theorem ffi_flag_validation :
    (∀ na n i c, (¬(na = 16 ∨ na = 32) ∨ ¬(n = 0 ∨ n = 1) ∨ ¬(i = 0 ∨ i = 1)) →
      rejectsCleanly (fee_calc_jones na n i c)) ∧
    (∀ na n i c, (¬(na = 16 ∨ na = 32) ∨ ¬(n = 0 ∨ n = 1) ∨ ¬(i = 0 ∨ i = 1)) →
      rejectsCleanly (fee_calc_jones_array na n i c)) ∧
    (∀ na n p, (¬(na = 16 ∨ na = 32) ∨ ¬(n = 0 ∨ n = 1)) →
      rejectsCleanly (new_gpu_fee_beam na n p)) ∧
    (∀ i c, ¬(i = 0 ∨ i = 1) → rejectsCleanly (fee_calc_jones_gpu i c)) ∧
    (∀ i c, ¬(i = 0 ∨ i = 1) → rejectsCleanly (fee_calc_jones_gpu_device i c)) ∧
    (∀ i c, ¬(i = 0 ∨ i = 1) → rejectsCleanly (fee_calc_jones_gpu_device_inner i c)) := by
  refine ⟨?_, ?_, ?_, ?_, ?_, ?_⟩
  · intro na n i c h
    by_cases h1 : na = 16 ∨ na = 32
    · by_cases h2 : n = 0 ∨ n = 1
      · by_cases h3 : i = 0 ∨ i = 1
        · rcases h with h | h | h
          · exact absurd h1 h
          · exact absurd h2 h
          · exact absurd h3 h
        · simp only [fee_calc_jones, if_pos h1, if_pos h2, if_neg h3]; decide
      · simp only [fee_calc_jones, if_pos h1, if_neg h2]; decide
    · simp only [fee_calc_jones, if_neg h1]; decide
  · intro na n i c h
    by_cases h1 : na = 16 ∨ na = 32
    · by_cases h2 : n = 0 ∨ n = 1
      · by_cases h3 : i = 0 ∨ i = 1
        · rcases h with h | h | h
          · exact absurd h1 h
          · exact absurd h2 h
          · exact absurd h3 h
        · simp only [fee_calc_jones_array, if_pos h1, if_pos h2, if_neg h3]; decide
      · simp only [fee_calc_jones_array, if_pos h1, if_neg h2]; decide
    · simp only [fee_calc_jones_array, if_neg h1]; decide
  · intro na n p h
    by_cases h1 : na = 16 ∨ na = 32
    · by_cases h2 : n = 0 ∨ n = 1
      · rcases h with h | h
        · exact absurd h1 h
        · exact absurd h2 h
      · simp only [new_gpu_fee_beam, if_pos h1, if_neg h2]; decide
    · simp only [new_gpu_fee_beam, if_neg h1]; decide
  · intro i c h
    simp only [fee_calc_jones_gpu, if_neg h]; decide
  · intro i c h
    simp only [fee_calc_jones_gpu_device, if_neg h]; decide
  · intro i c h
    simp only [fee_calc_jones_gpu_device_inner, if_neg h]; decide

theorem ffi_flag_validation_witness :
    rejectsCleanly (fee_calc_jones 17 0 0 (Except.ok ())) ∧
    rejectsCleanly (fee_calc_jones_array 16 2 0 (Except.ok ())) ∧
    rejectsCleanly (new_gpu_fee_beam 16 3 (Except.ok ())) ∧
    rejectsCleanly (fee_calc_jones_gpu 2 (Except.ok ())) ∧
    rejectsCleanly (fee_calc_jones_gpu_device 2 (Except.ok ())) ∧
    rejectsCleanly (fee_calc_jones_gpu_device_inner 2 (Except.ok ())) :=
  ⟨ffi_flag_validation.1 17 0 0 (Except.ok ()) (Or.inl (by decide)),
   ffi_flag_validation.2.1 16 2 0 (Except.ok ()) (Or.inr (Or.inl (by decide))),
   ffi_flag_validation.2.2.1 16 3 (Except.ok ()) (Or.inr (by decide)),
   ffi_flag_validation.2.2.2.1 2 (Except.ok ()) (by decide),
   ffi_flag_validation.2.2.2.2.1 2 (Except.ok ()) (by decide),
   ffi_flag_validation.2.2.2.2.2 2 (Except.ok ()) (by decide)⟩

/-- C6 counterexample: `fee_calc_jones` returns the same status code, 1,
for a validation error (num_amps = 17) and for an internal/capability
failure (a failing `calc_jones_pair`), so the code returned for a
validation error does not differ from the code returned for an internal
failure. -/
theorem ffi_status_codes_counterexample :
    (fee_calc_jones 17 0 0 (Except.ok ())).status =
      (fee_calc_jones 16 0 0 (Except.error "device error")).status ∧
    (fee_calc_jones 17 0 0 (Except.ok ())).status ≠ 0 ∧
    (fee_calc_jones 16 0 0 (Except.error "device error")).status ≠ 0 := by
  decide

/-- C6 amended: every boundary function returns 0 exactly on success and a
nonzero code on failure.  The engine constructors `new_fee_beam` and
`new_fee_beam_from_env` give the three failure classes distinct codes
(validation 2, internal 1, intercepted fatal -1); the compute and
GPU-construction functions return 1 for both validation and internal
failures, a code distinct from the intercepted-fatal code -1. -/
theorem ffi_status_codes :
    (∀ pv l f,
      ((new_fee_beam pv l f).status = 0 ↔
        f = none ∧ pv = true ∧ l = Except.ok ()) ∧
      (∀ m, f = some m → (new_fee_beam pv l f).status = -1) ∧
      (f = none → pv = false → (new_fee_beam pv l f).status = 2) ∧
      (∀ e, f = none → pv = true → l = Except.error e →
        (new_fee_beam pv l f).status = 1)) ∧
    (∀ l f,
      ((new_fee_beam_from_env l f).status = 0 ↔ f = none ∧ l = Except.ok ()) ∧
      (∀ m, f = some m → (new_fee_beam_from_env l f).status = -1) ∧
      (∀ e, f = none → l = Except.error e → (new_fee_beam_from_env l f).status = 1)) ∧
    (∀ na n i c,
      ((fee_calc_jones na n i c).status = 0 ↔
        (na = 16 ∨ na = 32) ∧ (n = 0 ∨ n = 1) ∧ (i = 0 ∨ i = 1) ∧
          c = Except.ok ()) ∧
      ((fee_calc_jones na n i c).status ≠ 0 →
        (fee_calc_jones na n i c).status = 1)) ∧
    (∀ na n i c,
      ((fee_calc_jones_array na n i c).status = 0 ↔
        (na = 16 ∨ na = 32) ∧ (n = 0 ∨ n = 1) ∧ (i = 0 ∨ i = 1) ∧
          c = Except.ok ()) ∧
      ((fee_calc_jones_array na n i c).status ≠ 0 →
        (fee_calc_jones_array na n i c).status = 1)) ∧
    (∀ na n p,
      ((new_gpu_fee_beam na n p).status = 0 ↔
        (na = 16 ∨ na = 32) ∧ (n = 0 ∨ n = 1) ∧ p = Except.ok ()) ∧
      ((new_gpu_fee_beam na n p).status ≠ 0 →
        (new_gpu_fee_beam na n p).status = 1)) ∧
    (∀ i c,
      ((fee_calc_jones_gpu i c).status = 0 ↔ (i = 0 ∨ i = 1) ∧ c = Except.ok ()) ∧
      ((fee_calc_jones_gpu i c).status ≠ 0 → (fee_calc_jones_gpu i c).status = 1)) ∧
    (∀ i c,
      ((fee_calc_jones_gpu_device i c).status = 0 ↔
        (i = 0 ∨ i = 1) ∧ c = Except.ok ()) ∧
      ((fee_calc_jones_gpu_device i c).status ≠ 0 →
        (fee_calc_jones_gpu_device i c).status = 1)) ∧
    (∀ i c,
      ((fee_calc_jones_gpu_device_inner i c).status = 0 ↔
        (i = 0 ∨ i = 1) ∧ c = Except.ok ()) ∧
      ((fee_calc_jones_gpu_device_inner i c).status ≠ 0 →
        (fee_calc_jones_gpu_device_inner i c).status = 1)) := by
  refine ⟨?_, ?_, ?_, ?_, ?_, ?_, ?_, ?_⟩
  · intro pv l f
    rcases f with _ | m
    · rcases pv with _ | _
      · rcases l with e | u
        · refine ⟨by simp [new_fee_beam], ?_, ?_, ?_⟩
          · intro m hm; cases hm
          · intro _ _; simp [new_fee_beam]
          · intro e' _ hpv; cases hpv
        · refine ⟨by simp [new_fee_beam], ?_, ?_, ?_⟩
          · intro m hm; cases hm
          · intro _ _; simp [new_fee_beam]
          · intro e' _ hpv; cases hpv
      · rcases l with e | u
        · refine ⟨by simp [new_fee_beam], ?_, ?_, ?_⟩
          · intro m hm; cases hm
          · intro _ hpv; cases hpv
          · intro e' _ _ _; simp [new_fee_beam]
        · refine ⟨by simp [new_fee_beam], ?_, ?_, ?_⟩
          · intro m hm; cases hm
          · intro _ hpv; cases hpv
          · intro e' _ _ hl; cases hl
    · refine ⟨by simp [new_fee_beam], ?_, ?_, ?_⟩
      · intro m' _; simp [new_fee_beam]
      · intro hf; cases hf
      · intro e' hf; cases hf
  · intro l f
    rcases f with _ | m
    · rcases l with e | u
      · refine ⟨by simp [new_fee_beam_from_env], ?_, ?_⟩
        · intro m hm; cases hm
        · intro e' _ _; simp [new_fee_beam_from_env]
      · refine ⟨by simp [new_fee_beam_from_env], ?_, ?_⟩
        · intro m hm; cases hm
        · intro e' _ hl; cases hl
    · refine ⟨by simp [new_fee_beam_from_env], ?_, ?_⟩
      · intro m' _; simp [new_fee_beam_from_env]
      · intro e' hf; cases hf
  · intro na n i c
    by_cases h1 : na = 16 ∨ na = 32
    · by_cases h2 : n = 0 ∨ n = 1
      · by_cases h3 : i = 0 ∨ i = 1
        · rcases c with e | u
          · simp [fee_calc_jones, if_pos h1, if_pos h2, if_pos h3, h1, h2, h3]
          · simp [fee_calc_jones, if_pos h1, if_pos h2, if_pos h3, h1, h2, h3]
        · simp [fee_calc_jones, if_pos h1, if_pos h2, if_neg h3, h3]
      · simp [fee_calc_jones, if_pos h1, if_neg h2, h2]
    · simp [fee_calc_jones, if_neg h1, h1]
  · intro na n i c
    by_cases h1 : na = 16 ∨ na = 32
    · by_cases h2 : n = 0 ∨ n = 1
      · by_cases h3 : i = 0 ∨ i = 1
        · rcases c with e | u
          · simp [fee_calc_jones_array, if_pos h1, if_pos h2, if_pos h3, h1, h2, h3]
          · simp [fee_calc_jones_array, if_pos h1, if_pos h2, if_pos h3, h1, h2, h3]
        · simp [fee_calc_jones_array, if_pos h1, if_pos h2, if_neg h3, h3]
      · simp [fee_calc_jones_array, if_pos h1, if_neg h2, h2]
    · simp [fee_calc_jones_array, if_neg h1, h1]
  · intro na n p
    by_cases h1 : na = 16 ∨ na = 32
    · by_cases h2 : n = 0 ∨ n = 1
      · rcases p with e | u
        · simp [new_gpu_fee_beam, if_pos h1, if_pos h2, h1, h2]
        · simp [new_gpu_fee_beam, if_pos h1, if_pos h2, h1, h2]
      · simp [new_gpu_fee_beam, if_pos h1, if_neg h2, h2]
    · simp [new_gpu_fee_beam, if_neg h1, h1]
  · intro i c
    by_cases h1 : i = 0 ∨ i = 1
    · rcases c with e | u
      · simp [fee_calc_jones_gpu, if_pos h1, h1]
      · simp [fee_calc_jones_gpu, if_pos h1, h1]
    · simp [fee_calc_jones_gpu, if_neg h1, h1]
  · intro i c
    by_cases h1 : i = 0 ∨ i = 1
    · rcases c with e | u
      · simp [fee_calc_jones_gpu_device, if_pos h1, h1]
      · simp [fee_calc_jones_gpu_device, if_pos h1, h1]
    · simp [fee_calc_jones_gpu_device, if_neg h1, h1]
  · intro i c
    by_cases h1 : i = 0 ∨ i = 1
    · rcases c with e | u
      · simp [fee_calc_jones_gpu_device_inner, if_pos h1, h1]
      · simp [fee_calc_jones_gpu_device_inner, if_pos h1, h1]
    · simp [fee_calc_jones_gpu_device_inner, if_neg h1, h1]

theorem ffi_status_codes_witness :
    (new_fee_beam true (Except.ok ()) none).status = 0 ∧
    (new_fee_beam false (Except.ok ()) none).status = 2 ∧
    (new_fee_beam true (Except.error "no such file") none).status = 1 ∧
    (new_fee_beam true (Except.ok ()) (some "internal panic")).status = -1 ∧
    (fee_calc_jones 16 0 0 (Except.ok ())).status = 0 ∧
    (fee_calc_jones_array 16 0 0 (Except.error "device error")).status = 1 ∧
    (new_gpu_fee_beam 16 0 (Except.ok ())).status = 0 ∧
    (fee_calc_jones_gpu 2 (Except.ok ())).status = 1 ∧
    (fee_calc_jones_gpu_device 1 (Except.ok ())).status = 0 ∧
    (fee_calc_jones_gpu_device_inner 0 (Except.error "device error")).status = 1 :=
  ⟨(ffi_status_codes.1 true (Except.ok ()) none).1.mpr ⟨rfl, rfl, rfl⟩,
   (ffi_status_codes.1 false (Except.ok ()) none).2.2.1 rfl rfl,
   (ffi_status_codes.1 true (Except.error "no such file") none).2.2.2
     "no such file" rfl rfl rfl,
   (ffi_status_codes.1 true (Except.ok ()) (some "internal panic")).2.1
     "internal panic" rfl,
   (ffi_status_codes.2.2.1 16 0 0 (Except.ok ())).1.mpr
     ⟨Or.inl rfl, Or.inl rfl, Or.inl rfl, rfl⟩,
   (ffi_status_codes.2.2.2.1 16 0 0 (Except.error "device error")).2 (by decide),
   (ffi_status_codes.2.2.2.2.1 16 0 (Except.ok ())).1.mpr
     ⟨Or.inl rfl, Or.inl rfl, rfl⟩,
   (ffi_status_codes.2.2.2.2.2.1 2 (Except.ok ())).2 (by decide),
   (ffi_status_codes.2.2.2.2.2.2.1 1 (Except.ok ())).1.mpr ⟨Or.inr rfl, rfl⟩,
   (ffi_status_codes.2.2.2.2.2.2.2 0 (Except.error "device error")).2 (by decide)⟩

/-- C7 counterexample: the compute and GPU-construction boundary calls never
install the process-wide failure interceptor — their traces contain no
hook-installation event at all — so it is not the case that every
boundary-crossing call installs the interceptor before entering internal
logic. -/
theorem ffi_hook_counterexample :
    FfiEvent.setHook ∉ (fee_calc_jones 16 0 0 (Except.ok ())).events ∧
    FfiEvent.setHook ∉ (fee_calc_jones_array 16 0 0 (Except.ok ())).events ∧
    FfiEvent.setHook ∉ (new_gpu_fee_beam 16 0 (Except.ok ())).events := by
  decide

/-- C7 amended: the engine-construction boundary calls `new_fee_beam` and
`new_fee_beam_from_env` install the process-wide failure interceptor as
their first action, remove it before returning, and convert an intercepted
fatal failure into status -1 with its message captured in the last-error
slot; the other boundary calls do not install the interceptor. -/
theorem ffi_hook_discipline :
    (∀ pv l f,
      (new_fee_beam pv l f).events.head? = some FfiEvent.setHook ∧
      FfiEvent.takeHook ∈ (new_fee_beam pv l f).events ∧
      (∀ m, f = some m → (new_fee_beam pv l f).status = -1 ∧
        FfiEvent.setLastError m ∈ (new_fee_beam pv l f).events)) ∧
    (∀ l f,
      (new_fee_beam_from_env l f).events.head? = some FfiEvent.setHook ∧
      FfiEvent.takeHook ∈ (new_fee_beam_from_env l f).events ∧
      (∀ m, f = some m → (new_fee_beam_from_env l f).status = -1 ∧
        FfiEvent.setLastError m ∈ (new_fee_beam_from_env l f).events)) ∧
    (∀ na n i c, FfiEvent.setHook ∉ (fee_calc_jones na n i c).events ∧
      FfiEvent.setHook ∉ (fee_calc_jones_array na n i c).events) ∧
    (∀ na n p, FfiEvent.setHook ∉ (new_gpu_fee_beam na n p).events) ∧
    (∀ i c, FfiEvent.setHook ∉ (fee_calc_jones_gpu i c).events ∧
      FfiEvent.setHook ∉ (fee_calc_jones_gpu_device i c).events ∧
      FfiEvent.setHook ∉ (fee_calc_jones_gpu_device_inner i c).events) := by
  refine ⟨?_, ?_, ?_, ?_, ?_⟩
  · intro pv l f
    rcases f with _ | m
    · rcases pv with _ | _ <;> rcases l with e | u <;>
        refine ⟨by simp [new_fee_beam], by simp [new_fee_beam], ?_⟩ <;>
        intro m hm <;> cases hm
    · exact ⟨by simp [new_fee_beam], by simp [new_fee_beam],
        fun m hm => by cases hm; exact ⟨rfl, by simp [new_fee_beam]⟩⟩
  · intro l f
    rcases f with _ | m
    · rcases l with e | u <;>
        refine ⟨by simp [new_fee_beam_from_env], by simp [new_fee_beam_from_env], ?_⟩ <;>
        intro m hm <;> cases hm
    · exact ⟨by simp [new_fee_beam_from_env], by simp [new_fee_beam_from_env],
        fun m hm => by cases hm; exact ⟨rfl, by simp [new_fee_beam_from_env]⟩⟩
  · intro na n i c
    constructor
    · by_cases h1 : na = 16 ∨ na = 32
      · by_cases h2 : n = 0 ∨ n = 1
        · by_cases h3 : i = 0 ∨ i = 1
          · rcases c with e | u <;>
              simp [fee_calc_jones, if_pos h1, if_pos h2, if_pos h3]
          · simp [fee_calc_jones, if_pos h1, if_pos h2, if_neg h3]
        · simp [fee_calc_jones, if_pos h1, if_neg h2]
      · simp [fee_calc_jones, if_neg h1]
    · by_cases h1 : na = 16 ∨ na = 32
      · by_cases h2 : n = 0 ∨ n = 1
        · by_cases h3 : i = 0 ∨ i = 1
          · rcases c with e | u <;>
              simp [fee_calc_jones_array, if_pos h1, if_pos h2, if_pos h3]
          · simp [fee_calc_jones_array, if_pos h1, if_pos h2, if_neg h3]
        · simp [fee_calc_jones_array, if_pos h1, if_neg h2]
      · simp [fee_calc_jones_array, if_neg h1]
  · intro na n p
    by_cases h1 : na = 16 ∨ na = 32
    · by_cases h2 : n = 0 ∨ n = 1
      · rcases p with e | u <;> simp [new_gpu_fee_beam, if_pos h1, if_pos h2]
      · simp [new_gpu_fee_beam, if_pos h1, if_neg h2]
    · simp [new_gpu_fee_beam, if_neg h1]
  · intro i c
    refine ⟨?_, ?_, ?_⟩ <;>
      by_cases h1 : i = 0 ∨ i = 1
    · rcases c with e | u <;> simp [fee_calc_jones_gpu, if_pos h1]
    · simp [fee_calc_jones_gpu, if_neg h1]
    · rcases c with e | u <;> simp [fee_calc_jones_gpu_device, if_pos h1]
    · simp [fee_calc_jones_gpu_device, if_neg h1]
    · rcases c with e | u <;> simp [fee_calc_jones_gpu_device_inner, if_pos h1]
    · simp [fee_calc_jones_gpu_device_inner, if_neg h1]

theorem ffi_hook_discipline_witness :
    (new_fee_beam true (Except.ok ()) (some "boom")).events.head? =
      some FfiEvent.setHook ∧
    FfiEvent.takeHook ∈ (new_fee_beam true (Except.ok ()) (some "boom")).events ∧
    (new_fee_beam true (Except.ok ()) (some "boom")).status = -1 ∧
    FfiEvent.setLastError "boom" ∈
      (new_fee_beam true (Except.ok ()) (some "boom")).events :=
  ⟨(ffi_hook_discipline.1 true (Except.ok ()) (some "boom")).1,
   (ffi_hook_discipline.1 true (Except.ok ()) (some "boom")).2.1,
   ((ffi_hook_discipline.1 true (Except.ok ()) (some "boom")).2.2 "boom" rfl).1,
   ((ffi_hook_discipline.1 true (Except.ok ()) (some "boom")).2.2 "boom" rfl).2⟩

/-- C10: caller-visible out parameters are written only on the success
path — a nonzero status from `fee_calc_jones` means the `jones` buffer was
not written, and a nonzero status from `new_fee_beam` or
`new_fee_beam_from_env` means the caller's handle pointer was not
modified. -/
theorem ffi_out_params_success_only (na n i : Nat) (c : Except String Unit)
    (pv : Bool) (l lf : Except String Unit) (f g : Option String) :
    ((fee_calc_jones na n i c).status ≠ 0 →
      FfiEvent.writeJones ∉ (fee_calc_jones na n i c).events) ∧
    ((new_fee_beam pv l f).status ≠ 0 →
      FfiEvent.writeBeamHandle ∉ (new_fee_beam pv l f).events) ∧
    ((new_fee_beam_from_env lf g).status ≠ 0 →
      FfiEvent.writeBeamHandle ∉ (new_fee_beam_from_env lf g).events) := by
  refine ⟨?_, ?_, ?_⟩
  · intro hne
    by_cases h1 : na = 16 ∨ na = 32
    · by_cases h2 : n = 0 ∨ n = 1
      · by_cases h3 : i = 0 ∨ i = 1
        · rcases c with e | u
          · simp [fee_calc_jones, if_pos h1, if_pos h2, if_pos h3]
          · exact absurd (by simp [fee_calc_jones, if_pos h1, if_pos h2, if_pos h3]) hne
        · simp [fee_calc_jones, if_pos h1, if_pos h2, if_neg h3]
      · simp [fee_calc_jones, if_pos h1, if_neg h2]
    · simp [fee_calc_jones, if_neg h1]
  · intro hne
    rcases f with _ | m
    · rcases pv with _ | _
      · simp [new_fee_beam]
      · rcases l with e | u
        · simp [new_fee_beam]
        · exact absurd (by simp [new_fee_beam]) hne
    · simp [new_fee_beam]
  · intro hne
    rcases g with _ | m
    · rcases lf with e | u
      · simp [new_fee_beam_from_env]
      · exact absurd (by simp [new_fee_beam_from_env]) hne
    · simp [new_fee_beam_from_env]

theorem ffi_out_params_success_only_witness :
    FfiEvent.writeJones ∉ (fee_calc_jones 17 0 0 (Except.ok ())).events ∧
    FfiEvent.writeBeamHandle ∉
      (new_fee_beam true (Except.error "no such file") none).events :=
  ⟨(ffi_out_params_success_only 17 0 0 (Except.ok ()) true (Except.ok ())
      (Except.ok ()) none none).1 (by decide),
   (ffi_out_params_success_only 17 0 0 (Except.ok ()) true
      (Except.error "no such file") (Except.ok ()) none none).2.1 (by decide)⟩
